import Mathlib

/-!
# FreeRCT sprite codec (`src/sprite_data.cpp`) — shallow embedding and verification

This file embeds the sprite image codec of FreeRCT (`sprite_data.cpp`):
header parsing (`ImageData::LoadSizes`), the indexed 8bpp decoder
(`ImageData8bpp::LoadData` / `GetPixel`), the true-colour 32bpp decoder
(`ImageData32bpp::LoadData` / `GetPixel`), the shared blit primitive
(`BlitPixel`), the alpha blend helper (`BlendPixels`) and the container
dispatch (`LoadImage`).  Byte buffers are `List Nat` with every read taken
modulo 256 (the C arrays hold `uint8`); machine integers are `Nat`/`Int`
with explicit `% 2 ^ 32` where C unsigned wrap-around matters.  C `while`
loops whose cursor strictly increases are embedded as fuel recursion with a
fuel value that dominates the loop's iteration bound, so a `none`/failure
from fuel exhaustion is unreachable on the paths the C code can take.
-/

set_option maxRecDepth 10000

namespace SpriteData

/-- Read one byte of a buffer: C arrays of `uint8` hold values `< 256`;
out-of-range reads (which validation rules out on live paths) default to 0. -/
def byte8 (d : List Nat) (i : Nat) : Nat := d.getD i 0 % 256

/-- Little-endian 16-bit read, as `RcdFileReader::GetUInt16` / `ptr[0] | (ptr[1] << 8)`. -/
def getUInt16 (d : List Nat) (i : Nat) : Nat := byte8 d i + 256 * byte8 d (i + 1)

/-- Little-endian 32-bit read, as `RcdFileReader::GetUInt32`. -/
def getUInt32 (d : List Nat) (i : Nat) : Nat :=
  byte8 d i + 256 * byte8 d (i + 1) + 65536 * byte8 d (i + 2) + 16777216 * byte8 d (i + 3)

/-- Reinterpret a 16-bit unsigned value as a signed `int16` (`GetInt16`). -/
def toInt16 (v : Nat) : Int := if v < 32768 then (v : Int) else (v : Int) - 65536

/-- Modelled from the spec: `MakeRGBA` of `palette.h` (not under `src/`) packs
four byte channels into one `uint32` pixel value; the claims are channel-wise,
so only `GetR (MakeRGBA r g b a) = r` (etc., for byte-sized arguments) matters,
not the channel order. -/
def MakeRGBA (r g b a : Nat) : Nat :=
  (r % 256) * 16777216 + (g % 256) * 65536 + (b % 256) * 256 + a % 256

/-- Modelled from the spec: `GetR` of `palette.h` (not under `src/`), the red
channel of a packed pixel. -/
def GetR (p : Nat) : Nat := p / 16777216 % 256

/-- Modelled from the spec: `GetG` of `palette.h` (not under `src/`). -/
def GetG (p : Nat) : Nat := p / 65536 % 256

/-- Modelled from the spec: `GetB` of `palette.h` (not under `src/`). -/
def GetB (p : Nat) : Nat := p / 256 % 256

/-- Modelled from the spec: `GetA` of `palette.h` (not under `src/`), the
opacity channel of a packed pixel. -/
def GetA (p : Nat) : Nat := p % 256

/-- Modelled from the spec: the fully-opaque opacity constant `OPAQUE` of
`palette.h` (not under `src/`); the spec's "fully opaque" byte value. -/
def OPAQUE : Nat := 255

/-- Result of `ImageData::LoadSizes`: the returned flag, the parsed geometry
fields, and the number of bytes by which the byte source was advanced. -/
structure SizesResult where
  ok : Bool
  width : Nat
  height : Nat
  xoffset : Int
  yoffset : Int
  consumed : Nat
  deriving Repr, DecidableEq

/-- `ImageData::LoadSizes` (sprite_data.cpp:38-51): `bytes` is the byte source
at the current read position, `length` the declared remaining block length.
The `length < 8` path returns before any `GetUInt16` call, so it consumes 0
bytes; every other path performs exactly the four 2-byte reads. -/
def LoadSizes (bytes : List Nat) (length : Nat) : SizesResult :=
  if length < 8 then ⟨false, 0, 0, 0, 0, 0⟩ else
  let w := getUInt16 bytes 0
  let h := getUInt16 bytes 2
  let xo := toInt16 (getUInt16 bytes 4)
  let yo := toInt16 (getUInt16 bytes 6)
  if w = 0 ∨ w > 300 ∨ h = 0 ∨ h > 500 then ⟨false, w, h, xo, yo, 8⟩
  else ⟨decide (length - 8 ≤ 100 * 1024), w, h, xo, yo, 8⟩

/-- One blended channel of `BlendPixels` (sprite_data.cpp:161-163 with the
final `>> 8` and the `uint8` truncation applied by `MakeRGBA`):
`(c * opacity + old_c * (256 - opacity)) >> 8` in C `uint` arithmetic. -/
def blendChannel (c oldc opacity : Nat) : Nat :=
  (c * opacity + oldc * ((256 + 2 ^ 32 - opacity) % 2 ^ 32)) % 2 ^ 32 / 256

/-- `BlendPixels` (sprite_data.cpp:159-167): blend the new `(r, g, b)` against
`old_pixel` at `opacity`; the result's opacity channel is always `OPAQUE`. -/
def BlendPixels (r g b : Nat) (old_pixel : Nat) (opacity : Nat) : Nat :=
  MakeRGBA (blendChannel r (GetR old_pixel) opacity)
           (blendChannel g (GetG old_pixel) opacity)
           (blendChannel b (GetB old_pixel) opacity)
           OPAQUE

/-! ## Shared blit primitive (`BlitPixel`, sprite_data.cpp:126-148)

`BlitPixel` tiles one resolved colour over a `numx × numy` grid of image
placements and clips every candidate against the destination rectangle.  The
embedding records the list of destination positions `(x, y)` the C code
writes (the write set); the written colour and the pointer arithmetic carry
no information the claims need.  The `while` loops advance `x` by `width`
(resp. `ymin` by `height`) towards `xend = xmin + numx * width` (resp.
`yend`), so `numx` (resp. `numy`) bounds the iteration count, also when
`width = 0` (then `x < xend` fails at once); the fuel is exact, keeping the
loop condition in the recursion. -/

/-- The inner `while (x < xend)` loop of `BlitPixel`: the x positions written
on one accepted row.  `break` on `x ≥ cr.width`; write only when `x ≥ 0`. -/
def blitRowXs (crW xend : Int) (width : Nat) : Nat → Int → List Int
  | 0, _ => []
  | fuel + 1, x =>
    if x < xend then
      if x ≥ crW then []
      else (if 0 ≤ x then [x] else []) ++ blitRowXs crW xend width fuel (x + width)
    else []

/-- The outer `while (ymin < yend)` loop of `BlitPixel`: `return` once
`ymin ≥ cr.height`, skip the row when `ymin < 0`. -/
def blitRows (crW crH xend : Int) (width : Nat) (xmin : Int) (numx : Nat)
    (height : Nat) (yend : Int) : Nat → Int → List (Int × Int)
  | 0, _ => []
  | fuel + 1, ymin =>
    if ymin < yend then
      if ymin ≥ crH then []
      else
        (if 0 ≤ ymin then (blitRowXs crW xend width numx xmin).map (fun x => (x, ymin)) else [])
          ++ blitRows crW crH xend width xmin numx height yend fuel (ymin + height)
    else []

/-- `BlitPixel` (sprite_data.cpp:126-148) as its destination write set:
the list of `(x, y)` destination positions the call stores to. -/
def BlitPixel (crW crH : Int) (xmin ymin : Int) (numx numy width height : Nat) :
    List (Int × Int) :=
  blitRows crW crH (xmin + numx * width) width xmin numx height
    (ymin + numy * height) numy ymin

/-! ## Indexed (8bpp) decoder (`ImageData8bpp`, sprite_data.cpp:186-260)

The row-verification `for (;;)` loop advances `offset` by `2 + count ≥ 2`
on every iteration and every iteration requires `offset + 2 < length`, so
`length + 1` fuel dominates the loop; the same holds for `GetPixel`'s
`while (xpos <= xoffset)` loop over the same run list. -/

/-- The `INVALID_JUMP` sentinel (sprite_data.h:13) as `Option`: `none` marks
an empty row.  Real entries are `< length < 100 KiB`, well clear of the
`uint32` sentinel value, so the `Option` split loses nothing. -/
abbrev JumpTable := List (Option Nat)

/-- The per-row verification loop of `ImageData8bpp::LoadData`
(sprite_data.cpp:216-228), returning the final `xpos` accumulator of the row
on success and `none` on any check failure.  `rel % 128` is `rel_pos & 127`
and `128 ≤ rel` is `(rel_pos & 128) != 0` (the byte is `< 256`). -/
def verifyRow (w len : Nat) (d : List Nat) : Nat → Nat → Nat → Option Nat
  | 0, _, _ => none
  | fuel + 1, offset, xpos =>
    if offset + 2 ≥ len then none else
    let rel := byte8 d offset
    let count := byte8 d (offset + 1)
    let xpos2 := xpos + rel % 128 + count
    let offset2 := offset + 2 + count
    if rel < 128 then
      if xpos2 ≥ w ∨ offset2 ≥ len then none
      else verifyRow w len d fuel offset2 xpos2
    else
      if xpos2 > w ∨ offset2 > len then none
      else some xpos2

/-- The jump-table loading loop of `ImageData8bpp::LoadData`
(sprite_data.cpp:197-206), reading `h` little-endian `uint32` entries from
`payload` starting at byte `4 * i`.  A raw value 0 becomes the empty-row
sentinel; otherwise the value is rebased by `dest -= jmp_table` in `uint32`
arithmetic (wrapping below zero) and must be `< len2`. -/
def readJumpTable (payload : List Nat) (jmp len2 : Nat) : Nat → Nat → Option JumpTable
  | 0, _ => some []
  | n + 1, i =>
    let dest := getUInt32 payload (4 * i)
    if dest = 0 then
      match readJumpTable payload jmp len2 n (i + 1) with
      | none => none
      | some t => some (none :: t)
    else
      let dest2 := (dest + 2 ^ 32 - jmp) % 2 ^ 32
      if dest2 ≥ len2 then none
      else
        match readJumpTable payload jmp len2 n (i + 1) with
        | none => none
        | some t => some (some dest2 :: t)

/-- The verification loop over all rows of `ImageData8bpp::LoadData`
(sprite_data.cpp:211-229): empty rows are skipped, every other row must pass
`verifyRow`. -/
def verifyAllRows (w len2 : Nat) (d : List Nat) (table : JumpTable) : Bool :=
  table.all fun e =>
    match e with
    | none => true
    | some off => (verifyRow w len2 d (len2 + 1) off 0).isSome

/-- `ImageData8bpp::LoadData` (sprite_data.cpp:186-231): on success returns
the stored jump table and data buffer.  `payload` is the block content after
the 8-byte header, so `length = payload.length`.  The C `new`-allocation
null checks are elided (allocation cannot fail in the embedding); the
mid-loop `return false` of the jump-table phase is the `none` of
`readJumpTable`, threaded by `Option.bind`. -/
def LoadData8 (w h : Nat) (payload : List Nat) : Option (JumpTable × List Nat) :=
  let len := payload.length
  let jmp := 4 * h
  if len ≤ jmp then none else
  let len2 := len - jmp
  (readJumpTable payload jmp len2 h 0).bind fun table =>
    let d := payload.drop jmp
    if verifyAllRows w len2 d table then some (table, d) else none

/-- The `while (xpos <= xoffset)` loop of `ImageData8bpp::GetPixel`
(sprite_data.cpp:242-258).  `pal` is the external `_palette` (palette.cpp,
not under `src/`), `rc` the optional recolour table of the `Recolouring`
context (`recolour->GetPalette(shift)`), both abstract.  `none` is fuel
exhaustion, which load validation rules out. -/
def getPixelRun (pal : Nat → Nat) (rc : Option (Nat → Nat)) (d : List Nat)
    (xoff : Nat) : Nat → Nat → Nat → Option Nat
  | 0, _, _ => none
  | fuel + 1, offset, xpos =>
    if xpos > xoff then some (pal 0) else
    let rel := byte8 d offset
    let count := byte8 d (offset + 1)
    let xpos1 := xpos + rel % 128
    if xpos1 > xoff then some (pal 0)
    else if xoff - xpos1 < count then
      let pixel := byte8 d (offset + 2 + (xoff - xpos1))
      some (pal (match rc with | none => pixel | some f => f pixel))
    else
      let xpos2 := xpos1 + count
      let offset2 := offset + 2 + count
      if rel < 128 then getPixelRun pal rc d xoff fuel offset2 xpos2
      else some (pal 0)

/-- `ImageData8bpp::GetPixel` (sprite_data.cpp:233-260). -/
def GetPixel8 (pal : Nat → Nat) (rc : Option (Nat → Nat)) (table : JumpTable)
    (d : List Nat) (w h : Nat) (x y : Nat) : Option Nat :=
  if x ≥ w then some (pal 0) else
  if y ≥ h then some (pal 0) else
  match table.getD y none with
  | none => some (pal 0)
  | some offset => getPixelRun pal rc d x (d.length + 1) offset 0

/-! ## True-colour (32bpp) decoder (`ImageData32bpp`, sprite_data.cpp:315-416)

The inner `while (ptr < end && !finished_line)` loop consumes at least the
mode byte per iteration and the outer row loop advances `ptr` by at least
one byte per continuing row, so `len + 1` fuel dominates both loops. -/

/-- The per-row scan of `ImageData32bpp::LoadData` (sprite_data.cpp:343-358):
from cursor `ptr` up to `e`, walk mode-tagged runs; returns
`(finished_line, xpos, ptr)` at loop exit (`none` only on fuel exhaustion).
`mode % 64` is `mode & 0x3F`, `mode / 64` is `mode >> 6`. -/
def scanLine32 (d : List Nat) (e : Nat) : Nat → Nat → Nat → Option (Bool × Nat × Nat)
  | 0, _, _ => none
  | fuel + 1, ptr, xpos =>
    if ptr ≥ e then some (false, xpos, ptr) else
    let mode := byte8 d ptr
    let ptr2 := ptr + 1
    if mode = 0 then some (true, xpos, ptr2) else
    let xpos2 := xpos + mode % 64
    let ptr3 :=
      match mode / 64 with
      | 0 => ptr2 + 3 * (mode % 64)
      | 1 => ptr2 + 1 + 3 * (mode % 64)
      | 2 => ptr2
      | _ => ptr2 + 1 + 1 + mode % 64
    scanLine32 d e fuel ptr3 xpos2

/-- The row loop of `ImageData32bpp::LoadData` (sprite_data.cpp:327-362):
returns `none` on any validation failure, and otherwise the per-row final
`xpos` values together with the final `line_count` and cursor, on which the
wrapper performs the trailing checks of lines 363-364. -/
def rows32 (w : Nat) (d : List Nat) (len : Nat) : Nat → Nat → Nat → Option (List Nat × Nat × Nat)
  | 0, _, _ => none
  | fuel + 1, ptr, cnt =>
    if ptr ≥ len then some ([], cnt, ptr) else
    let ll := getUInt16 d ptr
    if ll = 0 then
      match scanLine32 d len (len + 1) (ptr + 2) 0 with
      | none => none
      | some (fin, xp, p2) =>
        if xp > w then none else
        if ¬fin then none else
        if p2 ≠ len then none else some ([xp], cnt + 1, p2)
    else
      let e := ptr + ll
      if e > len then none else
      match scanLine32 d e (len + 1) (ptr + 2) 0 with
      | none => none
      | some (fin, xp, p2) =>
        if xp > w then none else
        if ¬fin then none else
        if p2 ≠ e then none else
        match rows32 w d len fuel p2 (cnt + 1) with
        | none => none
        | some (sums, c, p3) => some (xp :: sums, c, p3)

/-- `ImageData32bpp::LoadData` (sprite_data.cpp:315-366): the payload after
the header is stored verbatim and validated row by row; the load succeeds
iff the row loop hits no failure, decodes exactly `h` rows and ends exactly
at the buffer end. -/
def LoadData32 (w h : Nat) (payload : List Nat) : Bool :=
  match rows32 w payload payload.length (payload.length + 1) 0 0 with
  | none => false
  | some (_, c, p) => c = h && p = payload.length

/-- The row-skipping loop of `ImageData32bpp::GetPixel`
(sprite_data.cpp:374-378): advance the cursor by each row block's declared
length, `y` times. -/
def skipRows32 (d : List Nat) : Nat → Nat → Nat
  | 0, ptr => ptr
  | y + 1, ptr => skipRows32 d y (ptr + getUInt16 d ptr)

/-- The `while (xoffset > 0)` loop of `ImageData32bpp::GetPixel`
(sprite_data.cpp:380-414).  `pal` is `_palette`, `sf` the gradient-shift
function `GetGradientShiftFunc(shift)` and `rct` the optional recolouring
context (`recolour->GetRecolourTable(layer)` as a curried table), all
external to `src/` and kept abstract.  `none` is fuel exhaustion only. -/
def getPixelRun32 (pal : Nat → Nat) (sf : Nat → Nat) (rct : Option (Nat → Nat → Nat))
    (d : List Nat) : Nat → Nat → Nat → Option Nat
  | 0, _, _ => none
  | fuel + 1, ptr, xoff =>
    if xoff = 0 then some (pal 0) else
    let mode := byte8 d ptr
    let p := ptr + 1
    if mode = 0 then some (pal 0) else
    if mode % 64 < xoff then
      let p2 :=
        match mode / 64 with
        | 0 => p + 3 * (mode % 64)
        | 1 => p + 1 + 3 * (mode % 64)
        | 2 => p + 1
        | _ => p + 1 + 1 + mode % 64
      getPixelRun32 pal sf rct d fuel p2 (xoff - mode % 64)
    else
      match mode / 64 with
      | 0 =>
        some (MakeRGBA (sf (byte8 d (p + 3 * xoff))) (sf (byte8 d (p + 3 * xoff + 1)))
          (sf (byte8 d (p + 3 * xoff + 2))) OPAQUE)
      | 1 =>
        let opacity := byte8 d p
        some (MakeRGBA (sf (byte8 d (p + 1 + 3 * xoff))) (sf (byte8 d (p + 1 + 3 * xoff + 1)))
          (sf (byte8 d (p + 1 + 3 * xoff + 2))) opacity)
      | 2 => some (pal 0)
      | _ =>
        let opacity := byte8 d (p + 1)
        match rct with
        | none => some (MakeRGBA 0 0 0 opacity)
        | some table =>
          let recoloured := table ((byte8 d p + 255) % 256) (byte8 d (p + 2 + xoff))
          some (MakeRGBA (sf (GetR recoloured)) (sf (GetG recoloured)) (sf (GetB recoloured)) opacity)

/-- `ImageData32bpp::GetPixel` (sprite_data.cpp:368-416). -/
def GetPixel32 (pal : Nat → Nat) (sf : Nat → Nat) (rct : Option (Nat → Nat → Nat))
    (w h : Nat) (d : List Nat) (x y : Nat) : Option Nat :=
  if x ≥ w then some (pal 0) else
  if y ≥ h then some (pal 0) else
  getPixelRun32 pal sf rct d (d.length + 1) (skipRows32 d y 0 + 2) x

/-! ## Container dispatch (`LoadImage`, sprite_data.cpp:508-522) -/

/-- A successfully loaded image as `LoadImage` stores it. -/
inductive LoadedImage where
  | img8 (w h : Nat) (xoff yoff : Int) (table : JumpTable) (data : List Nat)
  | img32 (w h : Nat) (xoff yoff : Int) (data : List Nat)
  deriving Repr, DecidableEq

/-- `LoadImage` (sprite_data.cpp:508-522): `name` and `version` are the
container record's 4-character tag and version, `size` its declared block
size and `bytes` the block content.  The only tag test in the code is
`strcmp(rcd_file->name, "8PXL") == 0`; the expected version is 2 for
`"8PXL"` and 1 for every other tag.  `GetBlob` after the header reads
exactly `size - 8` bytes from the source. -/
def LoadImage (name : String) (version : Nat) (size : Nat) (bytes : List Nat) :
    Option LoadedImage :=
  let is8bpp := name = "8PXL"
  if version ≠ (if is8bpp then 2 else 1) then none else
  let s := LoadSizes bytes size
  if s.ok then
    let payload := (List.range (size - 8)).map fun i => byte8 bytes (i + 8)
    if is8bpp then
      match LoadData8 s.width s.height payload with
      | none => none
      | some (table, d) => some (.img8 s.width s.height s.xoffset s.yoffset table d)
    else
      if LoadData32 s.width s.height payload then
        some (.img32 s.width s.height s.xoffset s.yoffset payload)
      else none
  else none

/-! ## Channel lemmas for `MakeRGBA` / `BlendPixels` -/

/-- Red channel extraction of a packed pixel. -/
theorem GetR_MakeRGBA (r g b a : Nat) : GetR (MakeRGBA r g b a) = r % 256 := by
  simp only [GetR, MakeRGBA]
  omega

/-- Green channel extraction of a packed pixel. -/
theorem GetG_MakeRGBA (r g b a : Nat) : GetG (MakeRGBA r g b a) = g % 256 := by
  simp only [GetG, MakeRGBA]
  omega

/-- Blue channel extraction of a packed pixel. -/
theorem GetB_MakeRGBA (r g b a : Nat) : GetB (MakeRGBA r g b a) = b % 256 := by
  simp only [GetB, MakeRGBA]
  omega

/-- Opacity channel extraction of a packed pixel. -/
theorem GetA_MakeRGBA (r g b a : Nat) : GetA (MakeRGBA r g b a) = a % 256 := by
  simp only [GetA, MakeRGBA]
  omega

/-- At opacity 0 a blended channel is exactly the old channel (old channels
are bytes, being `GetR`/`GetG`/`GetB` extractions). -/
theorem blendChannel_zero (c oldc : Nat) (h : oldc < 256) : blendChannel c oldc 0 = oldc := by
  simp only [blendChannel, Nat.mul_zero, Nat.zero_add, Nat.sub_zero]
  omega

/-- At opacity 255 a blended channel is the new channel, minus one exactly
when the old channel is smaller: `(255 c + oldc) / 256`. -/
theorem blendChannel_255 (c oldc : Nat) (hc : c < 256) (ho : oldc < 256) :
    blendChannel c oldc 255 = if oldc < c then c - 1 else c := by
  simp only [blendChannel]
  have h1 : (256 + 2 ^ 32 - 255) % 2 ^ 32 = 1 := by norm_num
  rw [h1]
  have h2 : (c * 255 + oldc * 1) % 2 ^ 32 = c * 255 + oldc := by omega
  rw [h2]
  split <;> omega

/-! ## Claims C6, C7, C10 -/

/-- C6, counterexample: `BlendPixels` at the full-opacity value 255 does not
reproduce the source colour (blending (100,0,0) over opaque black yields red
channel 99), and at opacity 0 it does not return the background pixel
unchanged (a non-opaque background gets its opacity channel forced to 255). -/
theorem c6_blend_identity_cex :
    BlendPixels 100 0 0 (MakeRGBA 0 0 0 255) 255 ≠ MakeRGBA 100 0 0 OPAQUE ∧
    BlendPixels 1 2 3 (MakeRGBA 5 6 7 0) 0 ≠ MakeRGBA 5 6 7 0 := by
  constructor <;> decide

/-- C6, amended: at opacity 255 each blended channel equals the source
channel when the background channel is at least as large, and the source
channel minus one otherwise (one unit of truncation error); at opacity 0 the
background's RGB channels are preserved exactly but the result is forced
fully opaque. -/
theorem c6_blend_near_identity (r g b old_pixel : Nat)
    (hr : r < 256) (hg : g < 256) (hb : b < 256) :
    (GetR (BlendPixels r g b old_pixel 255) = if GetR old_pixel < r then r - 1 else r) ∧
    (GetG (BlendPixels r g b old_pixel 255) = if GetG old_pixel < g then g - 1 else g) ∧
    (GetB (BlendPixels r g b old_pixel 255) = if GetB old_pixel < b then b - 1 else b) ∧
    BlendPixels r g b old_pixel 0 =
      MakeRGBA (GetR old_pixel) (GetG old_pixel) (GetB old_pixel) OPAQUE := by
  have hR : GetR old_pixel < 256 := Nat.mod_lt _ (by norm_num)
  have hG : GetG old_pixel < 256 := Nat.mod_lt _ (by norm_num)
  have hB : GetB old_pixel < 256 := Nat.mod_lt _ (by norm_num)
  refine ⟨?_, ?_, ?_, ?_⟩
  · rw [BlendPixels, GetR_MakeRGBA, blendChannel_255 r _ hr hR]
    split <;> omega
  · rw [BlendPixels, GetG_MakeRGBA, blendChannel_255 g _ hg hG]
    split <;> omega
  · rw [BlendPixels, GetB_MakeRGBA, blendChannel_255 b _ hb hB]
    split <;> omega
  · rw [BlendPixels, blendChannel_zero r _ hR, blendChannel_zero g _ hG,
      blendChannel_zero b _ hB]

/-- C6, witness: the amended theorem applied at (100, 0, 0) over opaque
black. -/
theorem c6_witness :
    (GetR (BlendPixels 100 0 0 (MakeRGBA 0 0 0 255) 255) =
      if GetR (MakeRGBA 0 0 0 255) < 100 then 100 - 1 else 100) ∧
    (GetG (BlendPixels 100 0 0 (MakeRGBA 0 0 0 255) 255) =
      if GetG (MakeRGBA 0 0 0 255) < 0 then 0 - 1 else 0) ∧
    (GetB (BlendPixels 100 0 0 (MakeRGBA 0 0 0 255) 255) =
      if GetB (MakeRGBA 0 0 0 255) < 0 then 0 - 1 else 0) ∧
    BlendPixels 100 0 0 (MakeRGBA 0 0 0 255) 0 =
      MakeRGBA (GetR (MakeRGBA 0 0 0 255)) (GetG (MakeRGBA 0 0 0 255))
        (GetB (MakeRGBA 0 0 0 255)) OPAQUE :=
  c6_blend_near_identity 100 0 0 (MakeRGBA 0 0 0 255)
    (by decide) (by decide) (by decide)

/-- C7, counterexample: on the fewer-than-8-bytes path `LoadSizes` returns
before any `GetUInt16` call, so the byte source is advanced by 0 bytes, not
8. -/
theorem c7_loadSizes_cex : (LoadSizes [] 7).consumed ≠ 8 := by decide

/-- C7, amended: `LoadSizes` advances the byte source by exactly 8 bytes on
every path — including the geometry-limit and payload-size failure paths —
except the insufficient-length path (`length < 8`), which consumes nothing. -/
theorem c7_loadSizes_consumed (bytes : List Nat) (length : Nat) :
    (LoadSizes bytes length).consumed = if length < 8 then 0 else 8 := by
  unfold LoadSizes
  split
  · rfl
  · dsimp only
    split <;> rfl

/-- C10: the pixel returned by `BlendPixels` always has its opacity channel
equal to the fully-opaque constant, for every source colour, background and
opacity — and at opacity zero the background's RGB channels are left intact,
so only the background's opacity channel can change. -/
theorem c10_blend_always_opaque (r g b old_pixel opacity : Nat) :
    GetA (BlendPixels r g b old_pixel opacity) = OPAQUE ∧
    GetR (BlendPixels r g b old_pixel 0) = GetR old_pixel ∧
    GetG (BlendPixels r g b old_pixel 0) = GetG old_pixel ∧
    GetB (BlendPixels r g b old_pixel 0) = GetB old_pixel := by
  have hR : GetR old_pixel < 256 := Nat.mod_lt _ (by norm_num)
  have hG : GetG old_pixel < 256 := Nat.mod_lt _ (by norm_num)
  have hB : GetB old_pixel < 256 := Nat.mod_lt _ (by norm_num)
  refine ⟨?_, ?_, ?_, ?_⟩
  · rw [BlendPixels, GetA_MakeRGBA]
    decide
  · rw [BlendPixels, GetR_MakeRGBA, blendChannel_zero r _ hR, Nat.mod_eq_of_lt hR]
  · rw [BlendPixels, GetG_MakeRGBA, blendChannel_zero g _ hG, Nat.mod_eq_of_lt hG]
  · rw [BlendPixels, GetB_MakeRGBA, blendChannel_zero b _ hB, Nat.mod_eq_of_lt hB]

/-! ## Claims C1 and C2 -/

/-- Formalisation of claim C2's row condition in the claim's own words (for
comparison with the source-translated `verifyRow`): walk the runs of an
indexed row from `offset`, accumulating skip-plus-count; stop at the first
run whose control byte has the high bit set, and require that run to lie
within the data buffer; return the accumulated sum. -/
def specRowSum (d : List Nat) : Nat → Nat → Nat → Option Nat
  | 0, _, _ => none
  | fuel + 1, offset, acc =>
    let rel := byte8 d offset
    let count := byte8 d (offset + 1)
    let acc2 := acc + rel % 128 + count
    if 128 ≤ rel then
      if offset + 2 + count ≤ d.length then some acc2 else none
    else specRowSum d fuel (offset + 2 + count) acc2

/-- C1, counterexample: the true-colour payload `[3, 0, 0]` for a width-2,
height-1 image — one row of declared length 3 whose runs sum to 0 ≠ 2 —
passes `ImageData32bpp::LoadData`: the validator only rejects rows whose sum
exceeds the width (`xpos > width`), not rows that fall short of it. -/
theorem c1_short_row_accepted_cex :
    rows32 2 [3, 0, 0] 3 4 0 0 = some ([0], 1, 3) ∧
    (0 : Nat) ≠ 2 ∧
    LoadData32 2 1 [3, 0, 0] = true := by
  refine ⟨by decide, by decide, by decide⟩

/-- C1, amended: every row sum recorded by a successful run of the
true-colour row validator is at most the width — a sum exceeding the width
fails the load, but a sum short of the width is accepted. -/
theorem c1_rows32_sums_le_width (w len : Nat) (d : List Nat)
    (fuel ptr cnt : Nat) (sums : List Nat) (c p : Nat)
    (h : rows32 w d len fuel ptr cnt = some (sums, c, p)) :
    ∀ s ∈ sums, s ≤ w := by
  induction fuel generalizing ptr cnt sums c p with
  | zero => simp [rows32] at h
  | succ n ih =>
    rw [rows32] at h
    dsimp only at h
    by_cases h1 : ptr ≥ len
    · rw [if_pos h1] at h
      simp only [Option.some.injEq, Prod.mk.injEq] at h
      simp [← h.1]
    · rw [if_neg h1] at h
      by_cases h2 : getUInt16 d ptr = 0
      · rw [if_pos h2] at h
        rcases hscan : scanLine32 d len (len + 1) (ptr + 2) 0 with _ | ⟨fin, xp, p2⟩ <;>
          rw [hscan] at h <;> dsimp only at h
        · exact absurd h (by simp)
        · by_cases h3 : xp > w
          · rw [if_pos h3] at h; exact absurd h (by simp)
          · rw [if_neg h3] at h
            by_cases h4 : fin = true
            · rw [if_neg (by simp [h4])] at h
              by_cases h5 : p2 ≠ len
              · rw [if_pos h5] at h; exact absurd h (by simp)
              · rw [if_neg h5] at h
                simp only [Option.some.injEq, Prod.mk.injEq] at h
                rcases h with ⟨hs, -, -⟩
                subst hs
                intro s hs
                simp only [List.mem_singleton] at hs
                omega
            · rw [if_pos (by simp [h4])] at h; exact absurd h (by simp)
      · rw [if_neg h2] at h
        by_cases h3 : ptr + getUInt16 d ptr > len
        · rw [if_pos h3] at h; exact absurd h (by simp)
        · rw [if_neg h3] at h
          rcases hscan : scanLine32 d (ptr + getUInt16 d ptr) (len + 1) (ptr + 2) 0 with
            _ | ⟨fin, xp, p2⟩ <;> rw [hscan] at h <;> dsimp only at h
          · exact absurd h (by simp)
          · by_cases h4 : xp > w
            · rw [if_pos h4] at h; exact absurd h (by simp)
            · rw [if_neg h4] at h
              by_cases h5 : fin = true
              · rw [if_neg (by simp [h5])] at h
                by_cases h6 : p2 ≠ ptr + getUInt16 d ptr
                · rw [if_pos h6] at h; exact absurd h (by simp)
                · rw [if_neg h6] at h
                  rcases hrec : rows32 w d len n p2 (cnt + 1) with _ | ⟨sums', c', p3⟩ <;>
                    rw [hrec] at h
                  · exact absurd h (by simp)
                  · simp only [Option.some.injEq, Prod.mk.injEq] at h
                    rcases h with ⟨hs, -, -⟩
                    subst hs
                    intro s hs
                    rcases List.mem_cons.1 hs with hs | hs
                    · omega
                    · exact ih _ _ _ _ _ hrec s hs
              · rw [if_pos (by simp [h5])] at h; exact absurd h (by simp)

/-- C1, witness: the amended theorem applied to the accepted width-2 payload
`[3, 0, 0]`, whose single recorded row sum 0 is indeed ≤ 2. -/
theorem c1_witness : (0 : Nat) ≤ 2 :=
  c1_rows32_sums_le_width 2 3 [3, 0, 0] 4 0 0 [0] 1 3 (by decide) 0 (by simp)

/-- C2, counterexample: (a) the width-2 indexed payload with jump entry 4
(row offset 0) and row data `[0x00, 0x02, 7, 9, 0x80, 0x00]` sums its runs
to exactly the width and ends with an in-buffer high-bit terminal run, yet
`ImageData8bpp::LoadData` rejects it — the non-terminal run already reaches
`xpos = width` and the validator requires `xpos < width` strictly there; (b)
the width-3 payload with row data `[0x80, 0x01, 7, 8, 9]` has row sum 1 ≠ 3
yet validates, so a count mutation that breaks the sum need not fail. -/
theorem c2_round_trip_cex :
    (specRowSum [0, 2, 7, 9, 128, 0] 7 0 0 = some 2 ∧
      LoadData8 2 1 [4, 0, 0, 0, 0, 2, 7, 9, 128, 0] = none) ∧
    (specRowSum [128, 1, 7, 8, 9] 6 0 0 = some 1 ∧ (1 : Nat) ≠ 3 ∧
      LoadData8 3 1 [4, 0, 0, 0, 128, 1, 7, 8, 9] =
        some ([some 0], [128, 1, 7, 8, 9])) := by
  refine ⟨⟨by decide, by decide⟩, by decide, by decide, by decide⟩

/-- C2, amended: a row accepted by the indexed row validator has its total
skip-plus-count sum at most the width, not necessarily equal to it: sums
above the width are rejected, sums below it are accepted, so the claimed
round-trip equality holds only as an upper bound. -/
theorem c2_verifyRow_sum_le_width (w len : Nat) (d : List Nat)
    (fuel offset xpos s : Nat)
    (h : verifyRow w len d fuel offset xpos = some s) : s ≤ w := by
  induction fuel generalizing offset xpos with
  | zero => simp [verifyRow] at h
  | succ n ih =>
    rw [verifyRow] at h
    dsimp only at h
    by_cases h1 : offset + 2 ≥ len
    · rw [if_pos h1] at h; exact absurd h (by simp)
    · rw [if_neg h1] at h
      by_cases h2 : byte8 d offset < 128
      · rw [if_pos h2] at h
        by_cases h3 : xpos + byte8 d offset % 128 + byte8 d (offset + 1) ≥ w ∨
            offset + 2 + byte8 d (offset + 1) ≥ len
        · rw [if_pos h3] at h; exact absurd h (by simp)
        · rw [if_neg h3] at h
          exact ih _ _ h
      · rw [if_neg h2] at h
        by_cases h3 : xpos + byte8 d offset % 128 + byte8 d (offset + 1) > w ∨
            offset + 2 + byte8 d (offset + 1) > len
        · rw [if_pos h3] at h; exact absurd h (by simp)
        · rw [if_neg h3] at h
          simp only [Option.some.injEq] at h
          omega

/-- C2, witness: the amended theorem applied to the accepted width-3 row
`[0x80, 0x01, 7, 8, 9]`, whose sum 1 is ≤ 3. -/
theorem c2_witness : (1 : Nat) ≤ 3 :=
  c2_verifyRow_sum_le_width 3 5 [128, 1, 7, 8, 9] 6 0 0 1 (by decide)

/-! ## Claim C3 -/

/-- Claim C3 in the claim's own words, parameterised by the (unnamed in
`src/`) recognized true-colour tag `tc`: every record whose tag/version pair
is neither (indexed tag `"8PXL"`, version 2) nor (`tc`, version 1) is
rejected by `LoadImage`. -/
def claimC3 (tc : String) : Prop :=
  ∀ name version size bytes,
    ¬((name = "8PXL" ∧ version = 2) ∨ (name = tc ∧ version = 1)) →
    LoadImage name version size bytes = none

/-- C3, counterexample: no choice of recognized true-colour tag makes the
claim true, because `LoadImage` checks only the version: both `"AAAA"` and
`"BBBB"` with version 1 and a valid true-colour block are accepted, and at
most one of them can be the recognized tag. -/
theorem c3_unrecognized_tag_cex : ¬∃ tc, claimC3 tc := by
  rintro ⟨tc, h⟩
  by_cases htc : tc = "AAAA"
  · have hr := h "BBBB" 1 15 ([1, 0, 1, 0, 0, 0, 0, 0] ++ [0, 0, 1, 10, 20, 30, 0])
      (by subst htc; decide)
    exact absurd hr (by decide)
  · have hr := h "AAAA" 1 15 ([1, 0, 1, 0, 0, 0, 0, 0] ++ [0, 0, 1, 10, 20, 30, 0])
      (by
        rintro (⟨h1, -⟩ | ⟨h1, -⟩)
        · exact absurd h1 (by decide)
        · exact htc h1.symm)
    exact absurd hr (by decide)

/-- C3, amended: `LoadImage` rejects a record, without attempting to decode
its payload, exactly when its version differs from the expected version for
its tag class — 2 when the tag is `"8PXL"`, 1 for every other tag; the tag
itself is otherwise unchecked, so any non-`"8PXL"` tag with version 1 is
decoded as a true-colour record. -/
theorem c3_version_mismatch_rejected (name : String) (version size : Nat)
    (bytes : List Nat)
    (h : version ≠ (if name = "8PXL" then 2 else 1)) :
    LoadImage name version size bytes = none := by
  rw [LoadImage]
  simp only [if_pos h]

/-- C3, witness: an `"8PXL"` record with version 1 is rejected. -/
theorem c3_witness : LoadImage "8PXL" 1 0 [] = none :=
  c3_version_mismatch_rejected "8PXL" 1 0 [] (by decide)

/-! ## Claim C5 -/

/-- Every x position of one blit row lies in `[0, crW)`. -/
theorem blitRowXs_bounds (crW xend : Int) (width : Nat) :
    ∀ fuel x, ∀ q ∈ blitRowXs crW xend width fuel x, 0 ≤ q ∧ q < crW := by
  intro fuel
  induction fuel with
  | zero => intro x q hq; simp [blitRowXs] at hq
  | succ n ih =>
    intro x q hq
    rw [blitRowXs] at hq
    by_cases h1 : x < xend
    · rw [if_pos h1] at hq
      by_cases h2 : x ≥ crW
      · rw [if_pos h2] at hq; simp at hq
      · rw [if_neg h2] at hq
        rcases List.mem_append.1 hq with hq | hq
        · by_cases h3 : (0 : Int) ≤ x
          · rw [if_pos h3] at hq
            simp only [List.mem_singleton] at hq
            subst hq
            exact ⟨h3, by omega⟩
          · rw [if_neg h3] at hq; simp at hq
        · exact ih _ _ hq
    · rw [if_neg h1] at hq; simp at hq

/-- C5: every destination position `BlitPixel` writes satisfies
`0 ≤ x < cr.width` and `0 ≤ y < cr.height` — out-of-clip candidate tile
positions are skipped and no write lands outside the clip rectangle. -/
theorem c5_blitPixel_in_bounds (crW crH : Int) (xmin ymin : Int)
    (numx numy width height : Nat) (p : Int × Int)
    (hp : p ∈ BlitPixel crW crH xmin ymin numx numy width height) :
    0 ≤ p.1 ∧ p.1 < crW ∧ 0 ≤ p.2 ∧ p.2 < crH := by
  rw [BlitPixel] at hp
  generalize hxe : xmin + (numx : Int) * width = xend at hp
  generalize hye : ymin + (numy : Int) * height = yend at hp
  clear hxe hye
  induction numy generalizing ymin with
  | zero => simp [blitRows] at hp
  | succ n ih =>
    rw [blitRows] at hp
    by_cases h1 : ymin < yend
    · rw [if_pos h1] at hp
      by_cases h2 : ymin ≥ crH
      · rw [if_pos h2] at hp; simp at hp
      · rw [if_neg h2] at hp
        rcases List.mem_append.1 hp with hq | hq
        · by_cases h3 : (0 : Int) ≤ ymin
          · rw [if_pos h3] at hq
            rcases List.mem_map.1 hq with ⟨x, hx, hxp⟩
            have hb := blitRowXs_bounds crW xend width numx xmin x hx
            subst hxp
            exact ⟨hb.1, hb.2, h3, by omega⟩
          · rw [if_neg h3] at hq; simp at hq
        · exact ih _ hq
    · rw [if_neg h1] at hp; simp at hp

/-- C5, witness: the theorem applied to a concrete one-tile blit whose single
write `(0, 0)` lies inside the 5×5 clip rectangle. -/
theorem c5_witness :
    0 ≤ ((0, 0) : Int × Int).1 ∧ ((0, 0) : Int × Int).1 < 5 ∧
    0 ≤ ((0, 0) : Int × Int).2 ∧ ((0, 0) : Int × Int).2 < 5 :=
  c5_blitPixel_in_bounds 5 5 0 0 1 1 1 1 (0, 0) (by decide)

/-! ## Claims C8 and C9 -/

/-- C8, counterexample: the claimed row data `[0x81, 0x02, idx0, idx1]` does
not validate: `0x81 & 127 = 1`, so the terminal run skips one column and its
accumulated position is `1 + 2 = 3 > width = 2`, which
`ImageData8bpp::LoadData` rejects (shown at `idx0 = 7`, `idx1 = 9`, with the
jump entry 4 denoting row offset 0). -/
theorem c8_scenario_cex : LoadData8 2 1 [4, 0, 0, 0, 129, 2, 7, 9] = none := by
  decide

/-- C8, amended: with the terminal control byte corrected to `0x80` (skip 0,
2 opaque pixels, high bit set), the width-2 height-1 indexed image with row
offset 0 (raw jump entry 4) validates, and `GetPixel` returns the palette
colour of `idx0` at (0,0), of `idx1` at (1,0), and the index-0 colour at
(2,0). -/
theorem c8_scenario_amended (i0 i1 : Nat) (pal : Nat → Nat)
    (h0 : i0 < 256) (h1 : i1 < 256) :
    LoadData8 2 1 [4, 0, 0, 0, 128, 2, i0, i1] = some ([some 0], [128, 2, i0, i1]) ∧
    GetPixel8 pal none [some 0] [128, 2, i0, i1] 2 1 0 0 = some (pal i0) ∧
    GetPixel8 pal none [some 0] [128, 2, i0, i1] 2 1 1 0 = some (pal i1) ∧
    GetPixel8 pal none [some 0] [128, 2, i0, i1] 2 1 2 0 = some (pal 0) := by
  refine ⟨?_, ?_, ?_, ?_⟩
  · have hjump : readJumpTable [4, 0, 0, 0, 128, 2, i0, i1] (4 * 1)
        ([4, 0, 0, 0, 128, 2, i0, i1].length - 4 * 1) 1 0 = some [some 0] := by
      simp [readJumpTable, byte8, getUInt32, List.getD_cons_zero, List.getD_cons_succ]
    unfold LoadData8
    simp only [hjump, Option.some_bind]
    simp [verifyAllRows, verifyRow, byte8, List.getD_cons_zero, List.getD_cons_succ]
  · simp [GetPixel8, getPixelRun, byte8, List.getD_cons_zero, List.getD_cons_succ,
      Nat.mod_eq_of_lt h0]
  · simp [GetPixel8, getPixelRun, byte8, List.getD_cons_zero, List.getD_cons_succ,
      Nat.mod_eq_of_lt h1]
  · simp [GetPixel8]

/-- C8, witness: the amended theorem at `idx0 = 7`, `idx1 = 9` and the
identity palette. -/
theorem c8_witness :
    LoadData8 2 1 [4, 0, 0, 0, 128, 2, 7, 9] = some ([some 0], [128, 2, 7, 9]) ∧
    GetPixel8 (fun n => n) none [some 0] [128, 2, 7, 9] 2 1 0 0 = some 7 ∧
    GetPixel8 (fun n => n) none [some 0] [128, 2, 7, 9] 2 1 1 0 = some 9 ∧
    GetPixel8 (fun n => n) none [some 0] [128, 2, 7, 9] 2 1 2 0 = some 0 :=
  c8_scenario_amended 7 9 (fun n => n) (by decide) (by decide)

/-- C9, counterexample: the claimed true-colour payload — row length prefix
5, mode byte 1, three RGB bytes, terminating mode byte 0, then a row length
prefix 0 — fails `ImageData32bpp::LoadData` (shown at RGB (10, 20, 30)):
the length prefix counts the whole row block including its own two bytes,
so prefix 5 cuts the row after two RGB bytes, and the trailing zero-length
block would make a second row on a height-1 image. -/
theorem c9_scenario_cex : LoadData32 1 1 [5, 0, 1, 10, 20, 30, 0, 0, 0] = false := by
  decide

/-- C9, amended: the 1×1 true-colour image is encoded as a single row block
whose length prefix is 0 (the final-row marker), containing mode byte 1,
the three RGB bytes and the terminating mode byte 0; this payload validates
for every RGB triple.  `GetPixel(0, 0)`, however, returns the index-0 colour
`_palette[0]`, not the stored RGB: the query loop `while (xoffset > 0)` is
never entered for column 0, so the leftmost column always reads as
transparent. -/
theorem c9_scenario_amended (r g b : Nat) (pal : Nat → Nat) (sf : Nat → Nat)
    (rct : Option (Nat → Nat → Nat)) :
    LoadData32 1 1 [0, 0, 1, r, g, b, 0] = true ∧
    GetPixel32 pal sf rct 1 1 [0, 0, 1, r, g, b, 0] 0 0 = some (pal 0) := by
  constructor
  · simp [LoadData32, rows32, scanLine32, getUInt16, byte8,
      List.getD_cons_zero, List.getD_cons_succ]
  · simp [GetPixel32, getPixelRun32, skipRows32, getUInt16, byte8,
      List.getD_cons_zero, List.getD_cons_succ]

/-! ## Claim C4

`ImageData8bpp::GetPixel` walks the same run list that `LoadData` validated:
both advance `offset` by `2 + count` per run and stop at the first high-bit
control byte, so a successful `verifyRow` at a given fuel forces the query
walk to return within the same fuel. -/

/-- If the row validator accepts the run list at `offset` with a given fuel,
the pixel-query walk over the same bytes with the same fuel returns a value
(for every target column and start position): it cannot exhaust its fuel. -/
theorem getPixelRun_total_of_verifyRow (w len : Nat) (d : List Nat)
    (pal : Nat → Nat) (rc : Option (Nat → Nat)) :
    ∀ fuel offset xpos s, verifyRow w len d fuel offset xpos = some s →
      ∀ xoff xp, getPixelRun pal rc d xoff fuel offset xp ≠ none := by
  intro fuel
  induction fuel with
  | zero => intro offset xpos s h; simp [verifyRow] at h
  | succ n ih =>
    intro offset xpos s h xoff xp
    rw [verifyRow] at h
    dsimp only at h
    rw [getPixelRun]
    dsimp only
    by_cases h1 : offset + 2 ≥ len
    · rw [if_pos h1] at h; exact absurd h (by simp)
    · rw [if_neg h1] at h
      by_cases hx : xp > xoff
      · rw [if_pos hx]; simp
      · rw [if_neg hx]
        by_cases h4 : xp + byte8 d offset % 128 > xoff
        · rw [if_pos h4]; simp
        · rw [if_neg h4]
          by_cases h5 : xoff - (xp + byte8 d offset % 128) < byte8 d (offset + 1)
          · rw [if_pos h5]; simp
          · rw [if_neg h5]
            by_cases h2 : byte8 d offset < 128
            · rw [if_pos h2] at h
              rw [if_pos h2]
              by_cases h3 : xpos + byte8 d offset % 128 + byte8 d (offset + 1) ≥ w ∨
                  offset + 2 + byte8 d (offset + 1) ≥ len
              · rw [if_pos h3] at h; exact absurd h (by simp)
              · rw [if_neg h3] at h
                exact ih _ _ _ h xoff _
            · rw [if_neg h2]; simp

/-- A jump table produced by `readJumpTable` for `n` rows has `n` entries. -/
theorem readJumpTable_length (payload : List Nat) (jmp len2 : Nat) :
    ∀ n i t, readJumpTable payload jmp len2 n i = some t → t.length = n := by
  intro n
  induction n with
  | zero => intro i t h; simp [readJumpTable] at h; simp [← h]
  | succ m ih =>
    intro i t h
    rw [readJumpTable] at h
    dsimp only at h
    by_cases h1 : getUInt32 payload (4 * i) = 0
    · rw [if_pos h1] at h
      rcases hr : readJumpTable payload jmp len2 m (i + 1) with _ | t' <;> rw [hr] at h
      · exact absurd h (by simp)
      · simp only [Option.some.injEq] at h
        subst h
        simp [ih _ _ hr]
    · rw [if_neg h1] at h
      by_cases h2 : (getUInt32 payload (4 * i) + 2 ^ 32 - jmp) % 2 ^ 32 ≥ len2
      · rw [if_pos h2] at h; exact absurd h (by simp)
      · rw [if_neg h2] at h
        rcases hr : readJumpTable payload jmp len2 m (i + 1) with _ | t' <;> rw [hr] at h
        · exact absurd h (by simp)
        · simp only [Option.some.injEq] at h
          subst h
          simp [ih _ _ hr]

/-- A `getD` hit on a jump table is a member of the table. -/
theorem getD_mem_of_some : ∀ (t : JumpTable) (y off : Nat),
    t.getD y none = some off → some off ∈ t
  | [], y, off, h => by simp [List.getD] at h
  | a :: t, 0, off, h => by
    rw [List.getD_cons_zero] at h
    exact h ▸ List.mem_cons_self a t
  | a :: t, y + 1, off, h => by
    rw [List.getD_cons_succ] at h
    exact List.mem_cons_of_mem a (getD_mem_of_some t y off h)

/-- If the whole-table verification passed, every non-empty row offset in
the table passes the row validator. -/
theorem verifyRow_of_verifyAllRows (w len2 : Nat) (d : List Nat) (table : JumpTable)
    (hall : verifyAllRows w len2 d table = true)
    (off : Nat) (hmem : some off ∈ table) :
    ∃ s, verifyRow w len2 d (len2 + 1) off 0 = some s := by
  rw [verifyAllRows, List.all_eq_true] at hall
  have h := hall _ hmem
  dsimp only at h
  exact Option.isSome_iff_exists.mp h

/-- Inversion of a successful `ImageData8bpp::LoadData`: the stored data
buffer is the payload after the jump table, its length is the validated
`length`, and the whole-table verification succeeded on it. -/
theorem LoadData8_inv (w hh : Nat) (payload : List Nat) (table : JumpTable)
    (d : List Nat) (hl : LoadData8 w hh payload = some (table, d)) :
    d = payload.drop (4 * hh) ∧ d.length = payload.length - 4 * hh ∧
      table.length = hh ∧
      verifyAllRows w (payload.length - 4 * hh) d table = true := by
  rw [LoadData8] at hl
  dsimp only at hl
  by_cases h1 : payload.length ≤ 4 * hh
  · rw [if_pos h1] at hl; exact absurd hl (by simp)
  · rw [if_neg h1] at hl
    rcases hj : readJumpTable payload (4 * hh) (payload.length - 4 * hh) hh 0 with _ | t <;>
      rw [hj] at hl
    · exact absurd hl (by simp)
    · simp only [Option.some_bind] at hl
      by_cases h2 : verifyAllRows w (payload.length - 4 * hh) (payload.drop (4 * hh)) t = true
      · rw [if_pos h2] at hl
        simp only [Option.some.injEq, Prod.mk.injEq] at hl
        rcases hl with ⟨ht, hd⟩
        subst ht
        subst hd
        exact ⟨rfl, List.length_drop _ _, readJumpTable_length _ _ _ _ _ _ hj,  h2⟩
      · rw [if_neg h2] at hl; exact absurd hl (by simp)

/-- C4: for an indexed image that passed load validation, `GetPixel` is
total: on every in-range coordinate it terminates with a value, and on every
out-of-range coordinate it returns the index-0 palette colour. -/
theorem c4_getPixel8_total (w hh : Nat) (payload : List Nat) (table : JumpTable)
    (d : List Nat) (pal : Nat → Nat) (rc : Option (Nat → Nat)) (x y : Nat)
    (hl : LoadData8 w hh payload = some (table, d)) :
    (x < w ∧ y < hh → GetPixel8 pal rc table d w hh x y ≠ none) ∧
    (x ≥ w ∨ y ≥ hh → GetPixel8 pal rc table d w hh x y = some (pal 0)) := by
  obtain ⟨-, hdlen, -, hver⟩ := LoadData8_inv w hh payload table d hl
  constructor
  · rintro ⟨hx, hy⟩
    rw [GetPixel8]
    rw [if_neg (by omega), if_neg (by omega)]
    rcases hg : table.getD y none with _ | off
    · simp
    · have hmem := getD_mem_of_some table y off hg
      obtain ⟨s, hs⟩ := verifyRow_of_verifyAllRows _ _ _ _ hver off hmem
      rw [← hdlen] at hs
      exact getPixelRun_total_of_verifyRow w d.length d pal rc _ _ _ _ hs x 0
  · intro hxy
    rw [GetPixel8]
    rcases hxy with hx | hy
    · rw [if_pos hx]
    · by_cases hxw : x ≥ w
      · rw [if_pos hxw]
      · rw [if_neg hxw, if_pos hy]

/-- C4, witness: the theorem applied to the concrete valid width-2 image of
the C8 scenario, at the in-range coordinate (0, 0) and the out-of-range
coordinate request. -/
theorem c4_witness :
    (0 < 2 ∧ 0 < 1 →
      GetPixel8 (fun n => n) none [some 0] [128, 2, 7, 9] 2 1 0 0 ≠ none) ∧
    ((0 : Nat) ≥ 2 ∨ (0 : Nat) ≥ 1 →
      GetPixel8 (fun n => n) none [some 0] [128, 2, 7, 9] 2 1 0 0 = some 0) :=
  c4_getPixel8_total 2 1 [4, 0, 0, 0, 128, 2, 7, 9] [some 0] [128, 2, 7, 9]
    (fun n => n) none 0 0 (by decide)

end SpriteData
